import Mathlib

/-!
Verification of the Lumio chat app's request/response normalization layer.

Shallow embedding of the two API routes:
  * the image route (image-flow): validation, conversation building,
    response-shape selection, part classification, failure classification;
  * the text route (text-flow): validation, conversation building with
    attachment coalescing (including its in-place mutation of the trailing
    turn), and text-only response handling.

JavaScript truthiness of the strings and optional fields involved is made
explicit: an optional string field is "truthy" when present and non-empty.
-/

namespace Lumio

/-- A content part of a request turn. The routes only ever construct text
parts and inline-data parts whose mime type has already been resolved. -/
inductive Part where
  | text (s : String)
  | inlineData (data : String) (mimeType : String)
  deriving DecidableEq, Repr

/-- One conversation turn: `{role, parts}`. -/
structure Turn where
  role : String
  parts : List Part
  deriving DecidableEq, Repr

/-- A request-body attachment `{data, mimeType?}` (the `images` entries of
the image route, the `files` entries of the text route). -/
structure Attachment where
  data : String
  mimeType : Option String
  deriving DecidableEq, Repr

/-- JS truthiness of an optional string: present and non-empty. -/
def strTruthy : Option String → Bool
  | some s => s ≠ ""
  | none => false

/-- `m || "image/png"`: the default applies when the field is absent or the
empty string (both falsy in JS). -/
def mimeOrPng (m : Option String) : String :=
  match m with
  | some s => if s = "" then "image/png" else s
  | none => "image/png"

/-- `{ inlineData: { data: img.data, mimeType: img.mimeType || "image/png" } }` -/
def inlinePart (a : Attachment) : Part :=
  .inlineData a.data (mimeOrPng a.mimeType)

/-! ## Provider response shape -/

/-- A part of the raw provider response; both fields are optional, and a
part may carry both. -/
structure RPart where
  inlineData : Option Attachment
  text : Option String
  deriving DecidableEq, Repr

/-- `candidates[i]`: optional `content.parts` and optional `finishReason`. -/
structure Candidate where
  parts : Option (List RPart)
  finishReason : Option String
  deriving DecidableEq, Repr

/-- The raw provider response, keeping every field either route reads:
top-level `parts`, `candidates`, and `promptFeedback.blockReason`.
An absent `candidates` array is represented by `[]` (the code only ever
indexes `candidates?.[0]` with optional chaining, so absent and empty
are indistinguishable to it). -/
structure RawResponse where
  parts : Option (List RPart)
  candidates : List Candidate
  blockReason : Option String
  deriving DecidableEq, Repr

/-- `response?.candidates?.[0]?.content?.parts || []`. -/
def nestedParts (r : RawResponse) : List RPart :=
  match r.candidates.head? with
  | some c => c.parts.getD []
  | none => []

/-- `(response)?.parts?.length ? (response).parts
      : (response)?.candidates?.[0]?.content?.parts || []`.
Note the condition is the truthiness of `length`: a top-level `parts`
that is present but empty has length `0`, which is falsy, so the code
falls back to the nested shape. -/
def selectParts (r : RawResponse) : List RPart :=
  match r.parts with
  | some ps => if ps.length ≠ 0 then ps else nestedParts r
  | none => nestedParts r

/-- A classified output image `{data, mimeType}`. -/
structure OutImage where
  data : String
  mimeType : String
  deriving DecidableEq, Repr

/-- `part.inlineData?.data` truthiness. -/
def rpInline (p : RPart) : Bool :=
  match p.inlineData with
  | some a => a.data ≠ ""
  | none => false

/-- The classification loop of the image route:
`if (part.inlineData?.data) imagesOut.push({data, mimeType || "image/png"})
 else if (part.text) textsOut.push(part.text)`,
accumulating in encounter order. -/
def classifyParts : List RPart → List OutImage × List String
  | [] => ([], [])
  | p :: rest =>
    let (is, ts) := classifyParts rest
    if rpInline p then
      match p.inlineData with
      | some a => (⟨a.data, mimeOrPng a.mimeType⟩ :: is, ts)
      | none => (is, ts)
    else if strTruthy p.text then (is, p.text.getD "" :: ts)
    else (is, ts)

/-- The structured failure the image route's empty-output message encodes. -/
inductive Failure where
  | blockedByPolicy (reason : String)
  | noOutputFinish (finishReason : String)
  | noOutput
  deriving DecidableEq, Repr

/-- `response?.candidates?.[0]?.finishReason`. -/
def respFinishReason (r : RawResponse) : Option String :=
  match r.candidates.head? with
  | some c => c.finishReason
  | none => none

/-- The cascade `blockReason ? ... : finishReason ? ... : ...` of the image
route's empty-output branch, as a structured value. -/
def classifyFailure (r : RawResponse) : Failure :=
  if strTruthy r.blockReason then .blockedByPolicy (r.blockReason.getD "")
  else if strTruthy (respFinishReason r) then
    .noOutputFinish ((respFinishReason r).getD "")
  else .noOutput

/-- The error message the image route renders for each failure, exactly the
strings built by the route. -/
def Failure.render : Failure → String
  | .blockedByPolicy b => "Request blocked: " ++ b
  | .noOutputFinish f => "No output returned (finish reason: " ++ f ++ ")"
  | .noOutput => "No output returned"

/-! ## Image route -/

/-- What an endpoint handler responds with (ignoring thrown exceptions,
which both routes turn into a 500 with the error's message). -/
inductive RouteResult where
  | ok200 (images : List OutImage) (text : String)
  | badRequest (error : String)
  | serverError (error : String)
  deriving DecidableEq, Repr

/-- Image-route conversation construction (lines 18–33 of the route):
copies `history`, then pushes one fresh user turn whose parts are
`{text: prompt}` followed by the mapped inline images.  The history list
is spread into a fresh array and no existing turn is touched, so this is
a pure append. -/
def buildImageContents (history : List Turn) (prompt : String)
    (images : List Attachment) : List Turn :=
  history ++ [⟨"user", .text prompt :: images.map inlinePart⟩]

/-- The image route `POST` handler, from `req.json()` fields to the
response, with the provider call abstracted as the `resp` argument.
`prompt` is `none` when absent or not a string (the code checks
`typeof prompt !== "string"`). -/
def imagePOST (history : Option (List Turn)) (prompt : Option String)
    (images : Option (List Attachment)) (resp : RawResponse) : RouteResult :=
  match prompt with
  | none => .badRequest "Prompt is required"
  | some p =>
    if p = "" then .badRequest "Prompt is required"
    else
      let _contents := buildImageContents (history.getD []) p (images.getD [])
      let (imgs, txts) := classifyParts (selectParts resp)
      if imgs = [] ∧ txts = [] then .serverError (classifyFailure resp).render
      else .ok200 imgs (String.intercalate "\n" txts)

/-! ## Text route -/

/-- `Array.isArray(files) && files.length > 0`. -/
def filesTruthy (f : Option (List Attachment)) : Bool :=
  match f with
  | some l => l ≠ []
  | none => false

/-- Output of the text-route conversation construction.  `contents` is the
array handed to the provider; `histAfter` is what the caller-supplied
`history` array's elements look like after the call.  The code starts from
`contents = [...history]` — a fresh array whose elements alias the caller's
turn objects — and its only mutation is
`contents[contents.length - 1].parts.push(...inlineParts)`; that element
aliases the last history turn exactly when no prompt turn was pushed
beforehand. -/
structure TextBuild where
  contents : List Turn
  histAfter : List Turn
  deriving DecidableEq, Repr

/-- Text-route conversation construction (lines 11–29 of the route):
copy `history`; push a fresh `{role:"user", parts:[{text: prompt}]}` when
`prompt` is a truthy string; then, when `files` is a non-empty array, map
them to inline parts and either push them into the last turn's `parts`
in place if that turn's role is `"user"`, or push a fresh user turn.
`histAfter` records the in-place mutation when the mutated turn is one of
the caller's history turns. -/
def textBuild (history : Option (List Turn)) (prompt : Option String)
    (files : Option (List Attachment)) : TextBuild :=
  let h := history.getD []
  let withPrompt := strTruthy prompt
  let c1 := if withPrompt then h ++ [⟨"user", [.text (prompt.getD "")]⟩] else h
  if filesTruthy files then
    let inl := (files.getD []).map inlinePart
    match c1.getLast? with
    | some t =>
      if t.role = "user" then
        { contents := c1.dropLast ++ [⟨t.role, t.parts ++ inl⟩],
          histAfter :=
            if withPrompt then h
            else h.dropLast ++ [⟨t.role, t.parts ++ inl⟩] }
      else { contents := c1 ++ [⟨"user", inl⟩], histAfter := h }
    | none => { contents := c1 ++ [⟨"user", inl⟩], histAfter := h }
  else { contents := c1, histAfter := h }

/-- Whether the last turn of a list exists and has role `"user"`
(the `contents[contents.length - 1]?.role === "user"` test). -/
def lastRoleUser (h : List Turn) : Bool :=
  match h.getLast? with
  | some t => t.role = "user"
  | none => false

/-- Per-part image classification: what the loop's first branch pushes for
a part, `none` when the branch is not taken. -/
def imageOf (p : RPart) : Option OutImage :=
  match p.inlineData with
  | some a => if a.data = "" then none else some ⟨a.data, mimeOrPng a.mimeType⟩
  | none => none

/-- Per-part text classification: what the loop's `else if` branch pushes,
`none` when the inline branch fired or the text field is falsy. -/
def textOf (p : RPart) : Option String :=
  if rpInline p then none
  else
    match p.text with
    | some s => if s = "" then none else some s
    | none => none

/-- `parts.filter(p => p.text).map(p => p.text).join("\n")` over
`response?.candidates?.[0]?.content?.parts || []`: the text route reads
only the nested shape and only truthy text fields. -/
def textJoin (r : RawResponse) : String :=
  String.intercalate "\n"
    ((nestedParts r).filter (fun p => strTruthy p.text)
      |>.map (fun p => p.text.getD ""))

/-- The text route `POST` handler: build contents, answer 400 when the
assembled `contents` is empty, otherwise answer 200 with the joined text
(the provider call abstracted as `resp`).  It performs no image
extraction and no failure classification. -/
def textPOST (history : Option (List Turn)) (prompt : Option String)
    (files : Option (List Attachment)) (resp : RawResponse) : RouteResult :=
  let b := textBuild history prompt files
  if b.contents = [] then .badRequest "Provide a prompt or files"
  else .ok200 [] (textJoin resp)

/-! ## Lemmas -/

/-- The imperative classification loop keeps images and texts in encounter
order: it computes exactly the two `filterMap`s of the per-part
classifiers. -/
theorem classifyParts_eq (ps : List RPart) :
    classifyParts ps = (ps.filterMap imageOf, ps.filterMap textOf) := by
  induction ps with
  | nil => rfl
  | cons p rest ih =>
    obtain ⟨id, tx⟩ := p
    cases id with
    | none =>
      cases tx with
      | none => simp [classifyParts, imageOf, textOf, rpInline, strTruthy, ih]
      | some s =>
        by_cases hs : s = "" <;>
          simp [classifyParts, imageOf, textOf, rpInline, strTruthy, hs, ih]
    | some a =>
      by_cases hd : a.data = "" <;>
        cases tx with
        | none => simp [classifyParts, imageOf, textOf, rpInline, strTruthy, hd, ih]
        | some s =>
          by_cases hs : s = "" <;>
            simp [classifyParts, imageOf, textOf, rpInline, strTruthy, hd, hs, ih]

/-- C1: when both classified collections are empty, the image route answers
500 with the failure cascade's message: a truthy block reason yields
`BlockedByPolicy` with that reason; only otherwise does a truthy finish
reason yield `NoOutput(finishReason)`; only otherwise the generic
`NoOutput`.  In particular `blockReason = "SAFETY"` always classifies as
`BlockedByPolicy "SAFETY"`, whatever finish reason is present. -/
theorem image_empty_output_failure_cascade
    (hist : Option (List Turn)) (p : String) (atts : Option (List Attachment))
    (r : RawResponse) (hp : p ≠ "")
    (hempty : classifyParts (selectParts r) = ([], [])) :
    imagePOST hist (some p) atts r = .serverError (classifyFailure r).render
    ∧ (∀ b, r.blockReason = some b → b ≠ "" →
        classifyFailure r = .blockedByPolicy b)
    ∧ (strTruthy r.blockReason = false →
        ∀ f, respFinishReason r = some f → f ≠ "" →
          classifyFailure r = .noOutputFinish f)
    ∧ (strTruthy r.blockReason = false → strTruthy (respFinishReason r) = false →
        classifyFailure r = .noOutput)
    ∧ (∀ r' : RawResponse, r'.blockReason = some "SAFETY" →
        classifyFailure r' = .blockedByPolicy "SAFETY") := by
  refine ⟨?_, ?_, ?_, ?_, ?_⟩
  · simp [imagePOST, hp, hempty]
  · intro b hb hbne
    simp [classifyFailure, strTruthy, hb, hbne]
  · intro hb f hf hfne
    have hsf : strTruthy (some f) = true := by simp [strTruthy, hfne]
    simp [classifyFailure, hb, hf, hsf]
  · intro hb hf
    simp [classifyFailure, hb, hf]
  · intro r' hb
    simp [classifyFailure, strTruthy, hb]

/-- C1 witness: a concrete blocked response with a finish reason also
present still renders the block message. -/
theorem image_empty_output_failure_cascade_witness :
    imagePOST none (some "draw") none
      ⟨some [], [⟨some [], some "STOP"⟩], some "SAFETY"⟩
      = .serverError "Request blocked: SAFETY" := by
  have h := image_empty_output_failure_cascade none "draw" none
    ⟨some [], [⟨some [], some "STOP"⟩], some "SAFETY"⟩ (by decide) (by decide)
  rw [h.1]
  decide

/-- C2 counterexample: a response whose top-level `parts` field is set (to
the empty array) does not use it: the normalizer falls back to
`candidates[0].content.parts`, because the code tests the truthiness of
`parts?.length`. -/
theorem selectParts_topLevel_set_cx :
    (RawResponse.mk (some []) [⟨some [⟨none, some "x"⟩], none⟩] none).parts
      = some []
    ∧ selectParts (RawResponse.mk (some []) [⟨some [⟨none, some "x"⟩], none⟩] none)
      = [⟨none, some "x"⟩] := by
  decide

/-- C2 (amended): when top-level `parts` is set and non-empty it is used
and the `candidates` field is ignored; when it is absent or empty the
normalizer falls back to `candidates[0].content.parts`; absent fields at
either level give the empty sequence, never a fault. -/
theorem selectParts_shape_selection (r : RawResponse) :
    (∀ ps, r.parts = some ps → ps ≠ [] → selectParts r = ps)
    ∧ (∀ ps cands cands' br br', ps ≠ [] →
        selectParts ⟨some ps, cands, br⟩ = selectParts ⟨some ps, cands', br'⟩)
    ∧ ((r.parts = none ∨ r.parts = some []) → selectParts r = nestedParts r)
    ∧ (r.parts = none → r.candidates = [] → selectParts r = []) := by
  refine ⟨?_, ?_, ?_, ?_⟩
  · intro ps hps hne
    simp [selectParts, hps, List.length_eq_zero, hne]
  · intro ps cands cands' br br' hne
    simp [selectParts, List.length_eq_zero, hne]
  · rintro (h | h) <;> simp [selectParts, h, List.length_eq_zero]
  · intro h1 h2
    simp [selectParts, nestedParts, h1, h2]

/-- C2 witness: a concrete non-empty top-level `parts` wins over a
conflicting nested shape. -/
theorem selectParts_shape_selection_witness :
    selectParts ⟨some [⟨none, some "a"⟩], [⟨some [⟨none, some "b"⟩], none⟩], none⟩
      = [⟨none, some "a"⟩] :=
  (selectParts_shape_selection
      ⟨some [⟨none, some "a"⟩], [⟨some [⟨none, some "b"⟩], none⟩], none⟩).1
    [⟨none, some "a"⟩] rfl (by decide)

/-- C3: with empty attachments and a non-empty prompt, the image-flow
builder returns the history verbatim followed by exactly one fresh user
turn whose only part is the text prompt — no deduplication, no
truncation. -/
theorem buildImage_no_attachments (h : List Turn) (p : String) (_hp : p ≠ "") :
    buildImageContents h p [] = h ++ [⟨"user", [.text p]⟩]
    ∧ (buildImageContents h p []).dropLast = h
    ∧ (buildImageContents h p []).getLast? = some ⟨"user", [.text p]⟩ := by
  refine ⟨rfl, ?_, ?_⟩
  · simp [buildImageContents]
  · simp [buildImageContents]

/-- C3 witness. -/
theorem buildImage_no_attachments_witness :
    buildImageContents [⟨"assistant", [.text "prev"]⟩] "hi" []
      = [⟨"assistant", [.text "prev"]⟩, ⟨"user", [.text "hi"]⟩] := by
  have h := buildImage_no_attachments [⟨"assistant", [.text "prev"]⟩] "hi"
    (by decide)
  rw [h.1]
  decide

/-- C4: with n ≥ 1 attachments, the image-flow builder's final user turn
has exactly n+1 parts — the text prompt followed by the n inline images
in input order — and an attachment's media type defaults to "image/png"
only when absent or empty. -/
theorem buildImage_with_attachments (h : List Turn) (p : String)
    (atts : List Attachment) (_hn : atts ≠ []) :
    buildImageContents h p atts = h ++ [⟨"user", .text p :: atts.map inlinePart⟩]
    ∧ ((buildImageContents h p atts).getLast?.map fun t => t.parts.length)
        = some (atts.length + 1)
    ∧ (∀ d, inlinePart ⟨d, none⟩ = .inlineData d "image/png")
    ∧ (∀ d m, m ≠ "" → inlinePart ⟨d, some m⟩ = .inlineData d m) := by
  refine ⟨rfl, ?_, ?_, ?_⟩
  · simp [buildImageContents]
  · intro d; rfl
  · intro d m hm; simp [inlinePart, mimeOrPng, hm]

/-- C4 witness: two attachments, one with a mime type and one without. -/
theorem buildImage_with_attachments_witness :
    buildImageContents [] "p" [⟨"d1", some "image/jpeg"⟩, ⟨"d2", none⟩]
      = [⟨"user", [.text "p", .inlineData "d1" "image/jpeg",
          .inlineData "d2" "image/png"]⟩] := by
  have h := buildImage_with_attachments [] "p"
    [⟨"d1", some "image/jpeg"⟩, ⟨"d2", none⟩] (by decide)
  rw [h.1]
  decide

/-- C8: whenever classification finds at least one image or text part, the
image route answers 200 with the images in provider order and the truthy
text parts joined by newlines in encounter order; parts classifying as
neither are dropped without affecting the rest. -/
theorem image_ok_normalization
    (hist : Option (List Turn)) (p : String) (atts : Option (List Attachment))
    (r : RawResponse) (hp : p ≠ "")
    (hne : ¬((selectParts r).filterMap imageOf = []
        ∧ (selectParts r).filterMap textOf = [])) :
    imagePOST hist (some p) atts r
      = .ok200 ((selectParts r).filterMap imageOf)
          (String.intercalate "\n" ((selectParts r).filterMap textOf))
    ∧ (∀ pre post : List RPart, ∀ q, imageOf q = none → textOf q = none →
        classifyParts (pre ++ q :: post) = classifyParts (pre ++ post)) := by
  constructor
  · simp only [imagePOST, classifyParts_eq]
    rw [if_neg hp, if_neg hne]
  · intro pre post q h1 h2
    simp [classifyParts_eq, List.filterMap_append, List.filterMap_cons, h1, h2]

/-- C8 witness: one text part "hello" and one inline-image part with media
type "image/jpeg" give `{images:[{data,"image/jpeg"}], text:"hello"}`. -/
theorem image_ok_normalization_witness :
    imagePOST none (some "p") none
      ⟨some [⟨none, some "hello"⟩, ⟨some ⟨"D", some "image/jpeg"⟩, none⟩], [], none⟩
      = .ok200 [⟨"D", "image/jpeg"⟩] "hello" := by
  have h := image_ok_normalization none "p" none
    ⟨some [⟨none, some "hello"⟩, ⟨some ⟨"D", some "image/jpeg"⟩, none⟩], [], none⟩
    (by decide) (by decide)
  rw [h.1]
  decide

/-- C10: a response part carrying both a non-empty inline-data field and a
text field is classified as an image only: it contributes nothing to the
text collection, at the head or at any position. -/
theorem inline_precedence (ps : List RPart) (a : Attachment) (t : String)
    (ha : a.data ≠ "") :
    classifyParts (⟨some a, some t⟩ :: ps)
      = (⟨a.data, mimeOrPng a.mimeType⟩ :: (classifyParts ps).1,
          (classifyParts ps).2)
    ∧ ∀ pre post : List RPart,
        (classifyParts (pre ++ ⟨some a, some t⟩ :: post)).2
          = (classifyParts (pre ++ post)).2 := by
  constructor
  · simp [classifyParts_eq, List.filterMap_cons, imageOf, textOf, rpInline, ha]
  · intro pre post
    simp [classifyParts_eq, List.filterMap_append, List.filterMap_cons,
      textOf, rpInline, ha]

/-- C10 witness: the part's caption text does not appear in the output. -/
theorem inline_precedence_witness :
    classifyParts [⟨some ⟨"D", some "image/jpeg"⟩, some "cap"⟩]
      = ([⟨"D", "image/jpeg"⟩], []) := by
  have h := inline_precedence [] ⟨"D", some "image/jpeg"⟩ "cap" (by decide)
  rw [h.1]
  decide

/-- The assembled text-route contents is empty exactly when there is no
truthy prompt, no non-empty files array, and no non-empty history. -/
theorem textBuild_contents_nil (h : Option (List Turn)) (p : Option String)
    (f : Option (List Attachment)) :
    (textBuild h p f).contents = [] ↔
      strTruthy p = false ∧ filesTruthy f = false ∧ h.getD [] = [] := by
  cases hp : strTruthy p <;> cases hf : filesTruthy f
  · simp [textBuild, hp, hf]
  · cases hl : (h.getD []).getLast? with
    | none => simp [textBuild, hp, hf, hl]
    | some t =>
      by_cases ht : t.role = "user" <;> simp [textBuild, hp, hf, hl, ht]
  · simp [textBuild, hp, hf]
  · simp [textBuild, hp, hf, List.getLast?_concat]

/-- C5 counterexample: a request with no prompt and no files but a
non-empty history is not answered with 400 — the emptiness check is on
the assembled contents, which includes the history. -/
theorem text_badRequest_history_cx :
    textPOST (some [⟨"user", [.text "hi"]⟩]) none none ⟨none, [], none⟩
      = .ok200 [] "" := by
  decide

/-- C5 (amended): the text route answers 400 exactly when there is no
truthy prompt, no non-empty files list, and no non-empty history array
(the assembled contents is empty); in particular with a prompt or files
present it never answers 400. -/
theorem text_badRequest_iff (h : Option (List Turn)) (p : Option String)
    (f : Option (List Attachment)) (r : RawResponse) :
    textPOST h p f r = .badRequest "Provide a prompt or files"
      ↔ strTruthy p = false ∧ filesTruthy f = false ∧ h.getD [] = [] := by
  constructor
  · intro he
    by_cases hc : (textBuild h p f).contents = []
    · exact (textBuild_contents_nil h p f).mp hc
    · simp [textPOST, hc] at he
  · intro hr
    have hc := (textBuild_contents_nil h p f).mpr hr
    simp [textPOST, hc]

/-- C5 witness: the fully empty body is answered with 400. -/
theorem text_badRequest_iff_witness :
    textPOST none none none ⟨none, [], none⟩
      = .badRequest "Provide a prompt or files" :=
  (text_badRequest_iff none none none ⟨none, [], none⟩).mpr (by decide)

/-- C6 counterexample: the text route mutates a caller-supplied history
turn in place: with no prompt, one file, and a history ending in a user
turn, that history turn gains the inline part. -/
theorem text_history_mutated_cx :
    (textBuild (some [⟨"user", [.text "hi"]⟩]) none
        (some [⟨"d", none⟩])).histAfter
      = [⟨"user", [.text "hi", .inlineData "d" "image/png"]⟩]
    ∧ (textBuild (some [⟨"user", [.text "hi"]⟩]) none
        (some [⟨"d", none⟩])).histAfter
      ≠ [⟨"user", [.text "hi"]⟩] := by
  decide

/-- C6 (amended): the image-flow builder never mutates history (it is a
pure append of one fresh turn); the text-flow builder leaves the history
turns unchanged except exactly when no truthy prompt is given, files are
non-empty, and the history's last turn has role "user" — then that last
turn alone is extended in place with the mapped file parts, all earlier
turns untouched. -/
theorem text_history_no_mutation (h : List Turn) (p : Option String)
    (f : Option (List Attachment)) :
    ((textBuild (some h) p f).histAfter = h ↔
      ¬(strTruthy p = false ∧ filesTruthy f = true ∧ lastRoleUser h = true))
    ∧ (textBuild (some h) p f).histAfter.dropLast = h.dropLast
    ∧ (∀ t, strTruthy p = false → filesTruthy f = true →
        h.getLast? = some t → t.role = "user" →
        (textBuild (some h) p f).histAfter
          = h.dropLast ++ [⟨t.role, t.parts ++ (f.getD []).map inlinePart⟩])
    ∧ (∀ hist pr atts, buildImageContents hist pr atts
        = hist ++ [⟨"user", Part.text pr :: atts.map inlinePart⟩]) := by
  have hinl : filesTruthy f = true → (f.getD []).map inlinePart ≠ [] := by
    intro hf
    cases f with
    | none => simp [filesTruthy] at hf
    | some l =>
      simp [filesTruthy] at hf
      simp [hf]
  refine ⟨?_, ?_, ?_, ?_⟩
  · cases hp : strTruthy p
    · cases hf : filesTruthy f
      · simp [textBuild, hp, hf]
      · cases hl : h.getLast? with
        | none => simp [textBuild, hp, hf, hl, lastRoleUser]
        | some t =>
          by_cases ht : t.role = "user"
          · obtain ⟨trole, tparts⟩ := t
            change trole = "user" at ht
            subst ht
            have hmv : (textBuild (some h) p f).histAfter
                = h.dropLast
                  ++ [⟨"user", tparts ++ (f.getD []).map inlinePart⟩] := by
              simp [textBuild, hp, hf, hl]
            rw [hmv]
            constructor
            · intro heq
              exfalso
              have hdec : h.dropLast ++ [(⟨"user", tparts⟩ : Turn)] = h :=
                List.dropLast_append_getLast? _ hl
              have h2 : h.dropLast
                    ++ [(⟨"user", tparts ++ (f.getD []).map inlinePart⟩ : Turn)]
                  = h.dropLast ++ [(⟨"user", tparts⟩ : Turn)] :=
                heq.trans hdec.symm
              have h3 := List.append_cancel_left h2
              have h4 : tparts ++ (f.getD []).map inlinePart = tparts := by
                have h5 := (List.cons.inj h3).1
                simpa using h5
              have h6 : (f.getD []).map inlinePart = [] := by
                have hlen := congrArg List.length h4
                simp at hlen
                simp [hlen]
              exact hinl hf h6
            · intro hcontra
              exact absurd ⟨rfl, rfl, by simp [lastRoleUser, hl]⟩ hcontra
          · simp [textBuild, hp, hf, hl, ht, lastRoleUser]
    · cases hf : filesTruthy f
      · simp [textBuild, hp, hf]
      · simp [textBuild, hp, hf, List.getLast?_concat]
  · cases hp : strTruthy p
    · cases hf : filesTruthy f
      · simp [textBuild, hp, hf]
      · cases hl : h.getLast? with
        | none => simp [textBuild, hp, hf, hl]
        | some t =>
          by_cases ht : t.role = "user"
          · simp [textBuild, hp, hf, hl, ht, List.dropLast_concat]
          · simp [textBuild, hp, hf, hl, ht]
    · cases hf : filesTruthy f
      · simp [textBuild, hp, hf]
      · simp [textBuild, hp, hf, List.getLast?_concat]
  · intro t hp hf hl ht
    simp [textBuild, hp, hf, hl, ht]
  · intro hist pr atts
    rfl

/-- C6 witness: with a history whose last turn is not a user turn, nothing
is mutated. -/
theorem text_history_no_mutation_witness :
    (textBuild (some [⟨"assistant", [.text "a"]⟩]) none
        (some [⟨"d", none⟩])).histAfter = [⟨"assistant", [.text "a"]⟩] := by
  have h := text_history_no_mutation [⟨"assistant", [.text "a"]⟩] none
    (some [⟨"d", none⟩])
  exact h.1.mpr (by decide)

/-- C7: with a non-empty files list, the text-flow builder appends the
mapped inline parts to the trailing user turn when one exists (the fresh
prompt turn when a prompt is given, else the history's last turn if its
role is "user"), and otherwise creates a new trailing user turn holding
only the inline parts; with both prompt and files the final turn is
Text(prompt) followed by all file parts. -/
theorem textBuild_files_coalescing (h : List Turn) (f : List Attachment)
    (hf : f ≠ []) :
    (∀ s, s ≠ "" → (textBuild (some h) (some s) (some f)).contents
        = h ++ [⟨"user", Part.text s :: f.map inlinePart⟩])
    ∧ (∀ t, h.getLast? = some t → t.role = "user" →
        (textBuild (some h) none (some f)).contents
          = h.dropLast ++ [⟨t.role, t.parts ++ f.map inlinePart⟩])
    ∧ (∀ t, h.getLast? = some t → t.role ≠ "user" →
        (textBuild (some h) none (some f)).contents
          = h ++ [⟨"user", f.map inlinePart⟩])
    ∧ (h = [] → (textBuild (some []) none (some f)).contents
        = [⟨"user", f.map inlinePart⟩]) := by
  have hft : filesTruthy (some f) = true := by simp [filesTruthy, hf]
  refine ⟨?_, ?_, ?_, ?_⟩
  · intro s hs
    have hst : strTruthy (some s) = true := by simp [strTruthy, hs]
    simp [textBuild, hst, hft, List.getLast?_concat, List.dropLast_concat]
  · intro t hl ht
    simp [textBuild, strTruthy, hft, hl, ht]
  · intro t hl ht
    simp [textBuild, strTruthy, hft, hl, ht]
  · intro _
    simp [textBuild, strTruthy, hft]

/-- C7 witness: prompt plus one file gives a single user turn with the
text part followed by the inline part. -/
theorem textBuild_files_coalescing_witness :
    (textBuild (some []) (some "hi") (some [⟨"d", none⟩])).contents
      = [⟨"user", [.text "hi", .inlineData "d" "image/png"]⟩] := by
  have h := textBuild_files_coalescing [] [⟨"d", none⟩] (by decide)
  rw [h.1 "hi" (by decide)]
  decide

/-- C9: once its contents is non-empty, the text route always answers 200
with no images and with the truthy text parts of
`candidates[0].content.parts` joined by newlines; the top-level parts
field is ignored, an empty text collection yields the empty string (never
a structured failure), and no 500 classification is ever produced. -/
theorem text_response_text_only (h : Option (List Turn)) (p : Option String)
    (f : Option (List Attachment)) (r : RawResponse)
    (hc : (textBuild h p f).contents ≠ []) :
    textPOST h p f r = .ok200 [] (textJoin r)
    ∧ (∀ tops, textJoin ⟨tops, r.candidates, r.blockReason⟩ = textJoin r)
    ∧ (((nestedParts r).filter fun q => strTruthy q.text) = [] →
        textPOST h p f r = .ok200 [] "")
    ∧ (∀ e, textPOST h p f r ≠ .serverError e) := by
  have h1 : textPOST h p f r = .ok200 [] (textJoin r) := by
    simp [textPOST, hc]
  refine ⟨h1, ?_, ?_, ?_⟩
  · intro tops; rfl
  · intro hempty
    rw [h1]
    simp only [textJoin, hempty, List.map_nil]
    rfl
  · intro e
    rw [h1]
    simp

/-- C9 witness: a response whose only part sits at the top level (which
the text route ignores) yields 200 with the empty string. -/
theorem text_response_text_only_witness :
    textPOST none (some "hi") none ⟨some [⟨none, some "ignored"⟩], [], none⟩
      = .ok200 [] "" := by
  have h := text_response_text_only none (some "hi") none
    ⟨some [⟨none, some "ignored"⟩], [], none⟩ (by decide)
  exact h.2.2.1 (by decide)

end Lumio
